import Mathlib

/-!
Shallow embedding of the `ng-fetch` utility (a Go neofetch clone):

* toolchain-version detection (`runCommand`, `processVersionString`,
  `GetProgrammingLanguages` from `system/SystemInfo.go`),
* host-metric collection and report rendering (`collectSystemInfo`,
  `PrintSystemInfo`, `printSystemDetails`, `getPadding`, `getDisplayWidth`
  from the second `system` source file),
* the command entry point (`runNeofetch`, `Execute` from `cmd/root.go`).

Go strings are modelled as Lean `String` (a list of Unicode code points,
matching Go runes); the Go standard-library string helpers used by the code
(`strings.Fields`, `strings.Split`, `strings.Contains`, `strings.TrimSpace`,
`strings.TrimPrefix`, `strings.Repeat`) are given executable structural
models below, with whitespace restricted to the ASCII space classes.
Go `float64` arithmetic is modelled by `ℚ`; every division the program
performs on the claim-relevant inputs (division of a small integer by a
power of two, or by 3600) is exact in binary floating point, so the
rational model agrees with the Go value there.  Child processes, the
`gopsutil` host queries, and terminal output are modelled as explicit
inputs/outputs: a probe capability `ExecCap`, a `HostEnv` record of
`Except`-valued sub-query results, and rendered output as a `List String`
of lines.
-/

namespace NgFetch

/-- Escape character U+001B, the first byte of an ANSI styling sequence. -/
def escChar : Char := '\x1b'

/-- Whitespace test used by the models of `strings.Fields` and
`strings.TrimSpace` (ASCII subset of Go `unicode.IsSpace`). -/
def isGoSpace (c : Char) : Bool :=
  c == ' ' || c == '\t' || c == '\n' || c == '\r' || c == '\x0b' || c == '\x0c'

/-- Splits a character list at every character satisfying `p`, keeping empty
pieces, accumulating the current piece in reverse in `acc`. -/
def splitPredAux (p : Char → Bool) : List Char → List Char → List (List Char)
  | [], acc => [acc.reverse]
  | c :: rest, acc =>
    if p c then acc.reverse :: splitPredAux p rest []
    else splitPredAux p rest (c :: acc)

/-- Model of Go `strings.Split(s, sep)` for a one-character separator
(the code only splits on `"\n"` and `"\""`). -/
def goSplitChar (s : String) (sep : Char) : List String :=
  (splitPredAux (fun c => c == sep) s.data []).map String.mk

/-- Model of Go `strings.Fields`: the maximal runs of non-whitespace
characters, in order. -/
def goFieldsS (s : String) : List String :=
  ((splitPredAux isGoSpace s.data []).filter (fun f => !f.isEmpty)).map String.mk

/-- Tests whether `pat` is a prefix of the second list. -/
def startsWithL : List Char → List Char → Bool
  | [], _ => true
  | _ :: _, [] => false
  | p :: ps, c :: cs => p == c && startsWithL ps cs

/-- Tests whether `pat` occurs as a contiguous sublist. -/
def containsL (pat : List Char) : List Char → Bool
  | [] => startsWithL pat []
  | c :: rest => startsWithL pat (c :: rest) || containsL pat rest

/-- Model of Go `strings.Contains(s, pat)`. -/
def goContains (s pat : String) : Bool := containsL pat.data s.data

/-- Model of Go `strings.TrimSpace`. -/
def goTrimSpace (s : String) : String :=
  String.mk (((s.data.dropWhile isGoSpace).reverse.dropWhile isGoSpace).reverse)

/-- Model of Go `strings.TrimPrefix(s, "v")`: drop one leading `v` if present. -/
def goTrimLeadV (s : String) : String :=
  match s.data with
  | 'v' :: rest => String.mk rest
  | _ => s

/-- Model of Go `strings.Repeat(" ", n)`. -/
def goRepeatSpace (n : Nat) : String := String.mk (List.replicate n ' ')

/-- Decimal digit character for `d < 10`. -/
def digitChar (d : Nat) : Char := Char.ofNat (48 + d)

/-- Fuel-driven decimal rendering of a natural number (most significant
digit first); `fuel = n + 1` always suffices. -/
def natReprAux : Nat → Nat → List Char
  | 0, _ => []
  | fuel + 1, n =>
    if n < 10 then [digitChar n]
    else natReprAux fuel (n / 10) ++ [digitChar (n % 10)]

/-- Decimal rendering of a natural number, model of Go `%d`. -/
def natRepr (n : Nat) : String := String.mk (natReprAux (n + 1) n)

/-- Rounds a rational to the nearest integer, ties to even — the rounding
the `%.2f` formatting of Go applies to the (here exact) scaled value. -/
def roundHalfEven (q : ℚ) : Int :=
  let f := Rat.floor q
  if q - f < 1 / 2 then f
  else if q - f > 1 / 2 then f + 1
  else if f % 2 = 0 then f else f + 1

/-- Renders `m` hundredths as a decimal with exactly two fraction digits. -/
def centsRepr (m : Nat) : String :=
  natRepr (m / 100) ++ "." ++ (if m % 100 < 10 then "0" else "") ++ natRepr (m % 100)

/-- Model of Go `fmt.Sprintf("%.2f", v)` on the rational model of a
`float64`: two decimal places, nearest, ties to even. -/
def fmtFloat2 (q : ℚ) : String :=
  let n := roundHalfEven (q * 100)
  if n < 0 then "-" ++ centsRepr n.natAbs else centsRepr n.toNat

/-! ## Toolchain version detection (`system/SystemInfo.go`) -/

/-- Language represents a programming language with its details
(fields in declaration order of the Go struct). -/
structure Language where
  Icon : String
  Name : String
  Version : String
deriving DecidableEq

/-- Helper function to create a language entry (`languageDetector` in Go:
arguments are name, icon, version). -/
def languageDetector (name icon version : String) : Language :=
  { Name := name, Icon := icon, Version := version }

/-- Child-process execution capability: given a command name and argument
list, `some` combined stdout+stderr text on success, `none` when the binary
is missing or the process exits non-zero (Go: `cmd.CombinedOutput()`
returning a non-nil error).  The Windows `cmd /c` shim in `runCommand`
invokes the same command with the same arguments, so one capability models
both branches. -/
def ExecCap : Type := String → List String → Option String

/-- Inner loop of the `java` case of `processVersionString`: scan the lines
for one containing "version" whose split on `"` has at least two parts and
return the part between the first pair of quotes; otherwise fall through to
the trailing `return version`. -/
def javaVersionScan : List String → String → String
  | [], fallback => fallback
  | line :: rest, fallback =>
    if goContains line "version" then
      let parts := goSplitChar line '\"'
      if h : parts.length > 1 then parts.get ⟨1, h⟩
      else javaVersionScan rest fallback
    else javaVersionScan rest fallback

/-- Process version string to extract clean version (per-tool `switch` on
the command name in `processVersionString`). -/
def processVersionString (command version : String) : String :=
  if command = "python" ∨ command = "ruby" ∨ command = "go" ∨ command = "rustc" then
    let parts := goFieldsS version
    if h : parts.length > 1 then parts.get ⟨1, h⟩ else version
  else if command = "node" then
    goTrimLeadV version
  else if command = "java" then
    javaVersionScan (goSplitChar version '\n') version
  else if command = "php" then
    let parts := goFieldsS version
    if h : parts.length > 0 then parts.get ⟨0, h⟩ else version
  else version

/-- Cross-platform command runner: empty string on invocation failure or
non-zero exit, otherwise the trimmed captured output passed through
`processVersionString`. -/
def runCommand (exec : ExecCap) (command : String) (args : List String) : String :=
  match exec command args with
  | none => ""
  | some output =>
    let version := goTrimSpace output
    processVersionString command version

/-- Probe for the Python version (`runCommand("python", "--version")`). -/
def getPythonVersion (exec : ExecCap) : String := runCommand exec "python" ["--version"]

/-- Probe for the Go version (`runCommand("go", "version")`). -/
def getGoVersion (exec : ExecCap) : String := runCommand exec "go" ["version"]

/-- Probe for the Node.js version (`runCommand("node", "--version")`). -/
def getNodeVersion (exec : ExecCap) : String := runCommand exec "node" ["--version"]

/-- Probe for the Java version (`runCommand("java", "-version")`). -/
def getJavaVersion (exec : ExecCap) : String := runCommand exec "java" ["-version"]

/-- Probe for the Ruby version (`runCommand("ruby", "--version")`). -/
def getRubyVersion (exec : ExecCap) : String := runCommand exec "ruby" ["--version"]

/-- Probe for the Rust version (`runCommand("rustc", "--version")`). -/
def getRustVersion (exec : ExecCap) : String := runCommand exec "rustc" ["--version"]

/-- Probe for the PHP version (`runCommand("php", "--version")`). -/
def getPHPVersion (exec : ExecCap) : String := runCommand exec "php" ["--version"]

/-- The literal `languages` slice built inside `GetProgrammingLanguages`,
in source order. -/
def languagesFull (exec : ExecCap) : List Language :=
  [languageDetector "Python" "🐍" (getPythonVersion exec),
   languageDetector "Go" "🟢" (getGoVersion exec),
   languageDetector "Node.js" "🟨" (getNodeVersion exec),
   languageDetector "Java" "☕" (getJavaVersion exec),
   languageDetector "Ruby" "💎" (getRubyVersion exec),
   languageDetector "Rust" "🦀" (getRustVersion exec),
   languageDetector "PHP" "🐘" (getPHPVersion exec)]

/-- GetProgrammingLanguages returns a detailed list of installed languages:
the configured probes in order, filtered to the entries with a non-empty
version (the `installedLanguages` append loop). -/
def GetProgrammingLanguages (exec : ExecCap) : List Language :=
  (languagesFull exec).filter (fun lang => lang.Version != "")

/-- One configured probe: display name, icon, command and arguments, as
hard-coded in `GetProgrammingLanguages` and the `get*Version` helpers. -/
structure ToolSpec where
  name : String
  icon : String
  command : String
  args : List String
deriving DecidableEq

/-- The seven configured tool probes, in the order the source configures
them. -/
def toolSpecs : List ToolSpec :=
  [⟨"Python", "🐍", "python", ["--version"]⟩,
   ⟨"Go", "🟢", "go", ["version"]⟩,
   ⟨"Node.js", "🟨", "node", ["--version"]⟩,
   ⟨"Java", "☕", "java", ["-version"]⟩,
   ⟨"Ruby", "💎", "ruby", ["--version"]⟩,
   ⟨"Rust", "🦀", "rustc", ["--version"]⟩,
   ⟨"PHP", "🐘", "php", ["--version"]⟩]

/-- The literal language list is the pointwise probe of the spec table. -/
theorem languagesFull_eq_map (exec : ExecCap) :
    languagesFull exec =
      toolSpecs.map (fun t => languageDetector t.name t.icon (runCommand exec t.command t.args)) :=
  rfl

/-- Executable rational floor of Batteries agrees with the Mathlib floor. -/
theorem ratFloor_eq_intFloor (q : ℚ) : Rat.floor q = ⌊q⌋ := by
  rw [Rat.floor_def, Rat.floor_def']

/-- Rounding an integer value changes nothing. -/
theorem roundHalfEven_intCast (n : ℤ) : roundHalfEven ((n : ℚ)) = n := by
  unfold roundHalfEven
  rw [ratFloor_eq_intFloor, Int.floor_intCast]
  norm_num

/-! ## Host metric collection and report rendering (second `system` source file) -/

/-- SystemInfo holds all system information (the `float64`
fields of the Go struct are modelled by `ℚ`). -/
structure SystemInfo where
  Platform : String
  Kernel : String
  Hostname : String
  CPU : String
  Memory : ℚ
  Disk : ℚ
  Uptime : ℚ
  NetworkSent : ℚ
  NetworkRecv : ℚ

/-- Success value of `host.Info()`: the fields the program reads. -/
structure HostInfoData where
  platform : String
  platformVersion : String
  kernelVersion : String
  hostname : String
  uptime : Nat

/-- Success value of `cpu.Info()`: the program reads only index 0 of the
returned slice, modelled as that element. -/
structure CPUInfoData where
  modelName : String

/-- Success value of `net.IOCounters(false)`: the program reads only index 0
of the returned slice, modelled as that element. -/
structure NetIOData where
  bytesSent : Nat
  bytesRecv : Nat

/-- Host-introspection results of one run: each gopsutil sub-query either
succeeds with its value or fails with an error message (Go `err != nil`). -/
structure HostEnv where
  hostInfo : Except String HostInfoData
  cpuInfo : Except String CPUInfoData
  cpuCounts : Except String Nat
  memVirtualMemory : Except String Nat
  diskUsage : Except String Nat
  netIOCounters : Except String NetIOData

/-- Sequential collection with early return on the first failed sub-query,
wrapping each failure in the message of its sub-query (`collectSystemInfo`). -/
def collectSystemInfo (env : HostEnv) : Except String SystemInfo :=
  match env.hostInfo with
  | Except.error e => Except.error ("failed to get host info: " ++ e)
  | Except.ok hostInfo =>
    match env.cpuInfo with
    | Except.error e => Except.error ("failed to get CPU info: " ++ e)
    | Except.ok cpuInfo =>
      match env.cpuCounts with
      | Except.error e => Except.error ("failed to get CPU count: " ++ e)
      | Except.ok cpuCount =>
        match env.memVirtualMemory with
        | Except.error e => Except.error ("failed to get memory info: " ++ e)
        | Except.ok memTotal =>
          match env.diskUsage with
          | Except.error e => Except.error ("failed to get disk info: " ++ e)
          | Except.ok diskTotal =>
            match env.netIOCounters with
            | Except.error e => Except.error ("failed to get network info: " ++ e)
            | Except.ok netInfo =>
              Except.ok
                { Platform := hostInfo.platform ++ " " ++ hostInfo.platformVersion
                  Kernel := hostInfo.kernelVersion
                  Hostname := hostInfo.hostname
                  CPU := cpuInfo.modelName ++ " (" ++ natRepr cpuCount ++ " cores)"
                  Memory := (memTotal : ℚ) / 2 ^ 30
                  Disk := (diskTotal : ℚ) / 2 ^ 30
                  Uptime := (hostInfo.uptime : ℚ) / 3600
                  NetworkSent := (netInfo.bytesSent : ℚ) / 2 ^ 20
                  NetworkRecv := (netInfo.bytesRecv : ℚ) / 2 ^ 20 }

/-- Spec-side reading of "the first failing sub-query": the wrapped message
of the first failed query in the order the provider issues them.  Written
from the words of the spec, to be compared with `collectSystemInfo`. -/
def firstSubFailure (env : HostEnv) : Option String :=
  match env.hostInfo with
  | Except.error e => some ("failed to get host info: " ++ e)
  | Except.ok _ =>
    match env.cpuInfo with
    | Except.error e => some ("failed to get CPU info: " ++ e)
    | Except.ok _ =>
      match env.cpuCounts with
      | Except.error e => some ("failed to get CPU count: " ++ e)
      | Except.ok _ =>
        match env.memVirtualMemory with
        | Except.error e => some ("failed to get memory info: " ++ e)
        | Except.ok _ =>
          match env.diskUsage with
          | Except.error e => some ("failed to get disk info: " ++ e)
          | Except.ok _ =>
            match env.netIOCounters with
            | Except.error e => some ("failed to get network info: " ++ e)
            | Except.ok _ => none

/-- Color styles of `createColorSchemes`; each is the SGR attribute list
passed to `color.New` (the Go field `section` is renamed `sect`, `section`
being a Lean keyword). -/
structure ColorSchemes where
  header : List Nat
  sect : List Nat
  value : List Nat
  border : List Nat

/-- `createColorSchemes`: FgHiGreen+Bold, FgHiBlue+Bold, FgWhite,
FgHiBlack+Bold as SGR codes in `color.New` argument order. -/
def createColorSchemes : ColorSchemes :=
  { header := [92, 1], sect := [94, 1], value := [37], border := [90, 1] }

/-- Joins rendered attribute codes with `;` as fatih/color does. -/
def joinSemis : List String → String
  | [] => ""
  | [s] => s
  | s :: rest => s ++ ";" ++ joinSemis rest

/-- The ANSI opening sequence fatih/color emits for an attribute list. -/
def ansiSeq (attrs : List Nat) : String :=
  "\x1b[" ++ joinSemis (attrs.map natRepr) ++ "m"

/-- The ANSI reset sequence. -/
def ansiReset : String := "\x1b[0m"

/-- Model of fatih/color `Sprint`: wraps the text in the ANSI opener of the style
sequence and a reset unless `color.NoColor` is set. -/
def colorSprint (attrs : List Nat) (noColor : Bool) (s : String) : String :=
  if noColor then s else ansiSeq attrs ++ s ++ ansiReset

/-- Model of `getDisplayWidth`: `utf8.RuneCountInString`, the number of
Unicode code points (Go `int`, hence `Int`). -/
def getDisplayWidth (s : String) : Int := (s.data.length : Int)

/-- Model of `getPadding`: spaces up to `totalWidth`, clamped at zero. -/
def getPadding (content : String) (totalWidth : Int) : String :=
  let displayWidth := getDisplayWidth content
  let paddingWidth := totalWidth - displayWidth
  let clamped := if paddingWidth < 0 then 0 else paddingWidth
  goRepeatSpace clamped.toNat

/-- The value cell of a metric: Go `interface{}` holding a `float64` or a
string. -/
inductive MetricValue where
  | flt (v : ℚ)
  | str (s : String)

/-- One row of the `metrics` literal in `printSystemDetails`. -/
structure Metric where
  icon : String
  name : String
  value : MetricValue
  unit : String

/-- The eight metric rows of `printSystemDetails`, in source order. -/
def metricsOf (info : SystemInfo) : List Metric :=
  [⟨"", "Platform", MetricValue.str info.Platform, ""⟩,
   ⟨"", "Kernel", MetricValue.str info.Kernel, ""⟩,
   ⟨"", "Hostname", MetricValue.str info.Hostname, ""⟩,
   ⟨"", "CPU", MetricValue.str info.CPU, ""⟩,
   ⟨"", "Memory", MetricValue.flt info.Memory, "GB"⟩,
   ⟨"", "Disk", MetricValue.flt info.Disk, "GB"⟩,
   ⟨"", "Uptime", MetricValue.flt info.Uptime, "hours"⟩,
   ⟨"", "Network",
    MetricValue.str ("↑" ++ fmtFloat2 info.NetworkSent ++ " MB | ↓"
      ++ fmtFloat2 info.NetworkRecv ++ " MB"), ""⟩]

/-- Model of `fmt.Sprintf("%.2f %s", v, unit)`, the float branch of the
value formatting in `printSystemDetails`. -/
def formatUnitValue (v : ℚ) (unit : String) : String :=
  fmtFloat2 v ++ " " ++ unit

/-- The `valueStr` computed in the loop body of `printSystemDetails`. -/
def metricValueStr (m : Metric) : String :=
  match m.value with
  | MetricValue.flt v => formatUnitValue v m.unit
  | MetricValue.str s => s

/-- One iteration of the print loop of `printSystemDetails`: the composed
line, padded to total width 58, wrapped in the `" %s%s \n"` format (the
newline is the line boundary of the output list). -/
def renderMetricLine (schemes : ColorSchemes) (noColor : Bool) (m : Metric) : String :=
  let line := m.icon ++ " " ++ colorSprint schemes.header noColor m.name ++ ": "
    ++ colorSprint schemes.value noColor (metricValueStr m)
  " " ++ line ++ getPadding line 58 ++ " "

/-- Model of `printSystemDetails`: the written lines, in order. -/
def printSystemDetails (info : SystemInfo) (schemes : ColorSchemes) (noColor : Bool) :
    List String :=
  (metricsOf info).map (renderMetricLine schemes noColor)

/-- Model of `PrintSystemInfo` (error-returning variant): sets
`color.NoColor`, collects, and on failure returns the wrapped error having
written nothing; on success writes the metric lines.  Result is the Go
return value paired with the lines written to standard output. -/
def PrintSystemInfo (noColor : Bool) (env : HostEnv) : Except String Unit × List String :=
  match collectSystemInfo env with
  | Except.error err =>
    (Except.error ("failed to collect system information: " ++ err), [])
  | Except.ok info =>
    (Except.ok (), printSystemDetails info createColorSchemes noColor)

/-! ## Command entry point (`cmd/root.go`) -/

/-- Model of `runNeofetch`: the error of `PrintSystemInfo` is tested only
to `return` early, so both branches end the function normally; the result
is the lines written. -/
def runNeofetch (noColors : Bool) (env : HostEnv) : List String :=
  match PrintSystemInfo noColors env with
  | (Except.error _, out) => out
  | (Except.ok _, out) => out

/-- Model of `Execute`: cobra runs the root command, whose `Run` calls
`runNeofetch`; only a top-level command error reaches `os.Exit(1)`.
Returns the process exit code. -/
def ExecuteExitCode (topLevelErr : Option String) (noColors : Bool) (env : HostEnv) : Nat :=
  match topLevelErr with
  | some _ => 1
  | none =>
    let _ := runNeofetch noColors env
    0

/-! ## Claim theorems -/

/-- C6: the padding returned by `getPadding` consists of exactly
`max 0 (totalWidth − code-point count)` spaces; in particular it is empty
when the display width equals the total width and also when it exceeds it
(never negative padding). -/
theorem C6_padding_clamped (content : String) (totalWidth : Int) :
    getPadding content totalWidth
      = goRepeatSpace (max 0 (totalWidth - getDisplayWidth content)).toNat ∧
    (getDisplayWidth content = totalWidth → getPadding content totalWidth = "") ∧
    (getDisplayWidth content > totalWidth → getPadding content totalWidth = "") := by
  refine ⟨?_, ?_, ?_⟩
  · unfold getPadding
    rcases lt_or_ge (totalWidth - getDisplayWidth content) 0 with h | h
    · simp only [if_pos h]
      rw [max_eq_left (le_of_lt h)]
    · simp only [if_neg (not_lt.2 h)]
      rw [max_eq_right h]
  · intro h
    unfold getPadding
    rw [h]
    simp [goRepeatSpace]
  · intro h
    unfold getPadding
    have hneg : totalWidth - getDisplayWidth content < 0 := by omega
    simp only [if_pos hneg]
    rfl

/-- Witness for C6 at the four-code-point string "abcd" with widths 4
(equal) and 3 (exceeded): both paddings are empty. -/
theorem C6_padding_clamped_witness :
    getPadding "abcd" 4 = "" ∧ getPadding "abcd" 3 = "" :=
  ⟨(C6_padding_clamped "abcd" 4).2.1 (by decide),
   (C6_padding_clamped "abcd" 3).2.2 (by decide)⟩

/-- C2 (code evaluation at the failing input): the php branch of
`processVersionString` takes the first whitespace-separated field of
"PHP 8.1.2 (cli)", which is the tool name "PHP", not the version "8.1.2"
the spec states; end to end, `runCommand` then reports the PHP version as
"PHP". -/
theorem C2_php_rule_keeps_tool_name :
    processVersionString "php" "PHP 8.1.2 (cli)" = "PHP" ∧
    runCommand (fun c _ => if c = "php" then some "PHP 8.1.2 (cli)\n" else none)
      "php" ["--version"] = "PHP" := by
  exact ⟨by decide, by decide⟩

/-- C9: when `PrintSystemInfo` returns a collection error, `runNeofetch`
discards it and ends normally (having written nothing), the process exit
code stays 0, and a non-zero exit code arises only from a top-level
command error. -/
theorem C9_error_swallowed_exit_zero (noColors : Bool) (env : HostEnv) (e : String)
    (h : (PrintSystemInfo noColors env).1 = Except.error e) :
    runNeofetch noColors env = [] ∧
    ExecuteExitCode none noColors env = 0 ∧
    (∀ msg, ExecuteExitCode (some msg) noColors env = 1) := by
  refine ⟨?_, rfl, fun _ => rfl⟩
  unfold runNeofetch
  unfold PrintSystemInfo at h ⊢
  cases hc : collectSystemInfo env with
  | error err => simp [hc]
  | ok info => rw [hc] at h; exact absurd h (by simp)

/-- Witness for C9 with a failing memory sub-query. -/
theorem C9_error_swallowed_exit_zero_witness :
    runNeofetch true
      { hostInfo := Except.ok ⟨"linux", "6.1", "6.1.0", "host", 3600⟩
        cpuInfo := Except.ok ⟨"cpu0"⟩
        cpuCounts := Except.ok 8
        memVirtualMemory := Except.error "denied"
        diskUsage := Except.ok 0
        netIOCounters := Except.ok ⟨0, 0⟩ } = [] ∧
    ExecuteExitCode none true
      { hostInfo := Except.ok ⟨"linux", "6.1", "6.1.0", "host", 3600⟩
        cpuInfo := Except.ok ⟨"cpu0"⟩
        cpuCounts := Except.ok 8
        memVirtualMemory := Except.error "denied"
        diskUsage := Except.ok 0
        netIOCounters := Except.ok ⟨0, 0⟩ } = 0 ∧
    (∀ msg, ExecuteExitCode (some msg) true
      { hostInfo := Except.ok ⟨"linux", "6.1", "6.1.0", "host", 3600⟩
        cpuInfo := Except.ok ⟨"cpu0"⟩
        cpuCounts := Except.ok 8
        memVirtualMemory := Except.error "denied"
        diskUsage := Except.ok 0
        netIOCounters := Except.ok ⟨0, 0⟩ } = 1) :=
  C9_error_swallowed_exit_zero true _
    "failed to collect system information: failed to get memory info: denied" rfl

/-- C1: whenever some host sub-query fails, `collectSystemInfo` returns the
wrapped error of the first failing sub-query in query order and no
`SystemInfo` value, `PrintSystemInfo` returns that error (wrapped once
more) and writes zero metric lines, so no successfully collected value
reaches the output. -/
theorem C1_first_failure_aborts (env : HostEnv) (noColor : Bool) (e : String)
    (h : firstSubFailure env = some e) :
    collectSystemInfo env = Except.error e ∧
    PrintSystemInfo noColor env
      = (Except.error ("failed to collect system information: " ++ e), []) := by
  obtain ⟨hi, ci, cc, mi, di, ni⟩ := env
  cases hi <;> cases ci <;> cases cc <;> cases mi <;> cases di <;> cases ni <;>
    simp_all [firstSubFailure, collectSystemInfo, PrintSystemInfo]

/-- Witness for C1: a run whose disk sub-query fails while every earlier
and later sub-query succeeds. -/
theorem C1_first_failure_aborts_witness :
    collectSystemInfo
      { hostInfo := Except.ok ⟨"linux", "6.1", "6.1.0", "host", 3600⟩
        cpuInfo := Except.ok ⟨"cpu0"⟩
        cpuCounts := Except.ok 8
        memVirtualMemory := Except.ok 1073741824
        diskUsage := Except.error "permission denied"
        netIOCounters := Except.ok ⟨0, 0⟩ }
      = Except.error "failed to get disk info: permission denied" ∧
    PrintSystemInfo false
      { hostInfo := Except.ok ⟨"linux", "6.1", "6.1.0", "host", 3600⟩
        cpuInfo := Except.ok ⟨"cpu0"⟩
        cpuCounts := Except.ok 8
        memVirtualMemory := Except.ok 1073741824
        diskUsage := Except.error "permission denied"
        netIOCounters := Except.ok ⟨0, 0⟩ }
      = (Except.error
          "failed to collect system information: failed to get disk info: permission denied",
         []) :=
  C1_first_failure_aborts _ false "failed to get disk info: permission denied" rfl

/-- Membership in the filtered language list unpacks to membership in the
probed list plus a non-empty version. -/
theorem mem_GetProgrammingLanguages (exec : ExecCap) (l : Language)
    (hl : l ∈ GetProgrammingLanguages exec) :
    l ∈ languagesFull exec ∧ l.Version ≠ "" := by
  have h := List.mem_filter.1 hl
  exact ⟨h.1, by simpa using h.2⟩

/-- C3: when the probe invocation of a tool fails or exits non-zero
(`CombinedOutput` error, modelled as `none`), `runCommand` returns the
empty string and the entry of that tool is excluded from
`GetProgrammingLanguages`; both functions are total, so no error is
surfaced. -/
theorem C3_failed_probe_excluded :
    (∀ (exec : ExecCap) (cmd : String) (args : List String),
      exec cmd args = none → runCommand exec cmd args = "") ∧
    (∀ (exec : ExecCap) (t : ToolSpec), t ∈ toolSpecs →
      exec t.command t.args = none →
      ∀ l ∈ GetProgrammingLanguages exec, l.Name ≠ t.name) := by
  constructor
  · intro exec cmd args h
    simp [runCommand, h]
  · intro exec t ht h l hl
    obtain ⟨hmem, hver⟩ := mem_GetProgrammingLanguages exec l hl
    simp only [toolSpecs, List.mem_cons, List.not_mem_nil, or_false] at ht
    simp only [languagesFull, languageDetector, getPythonVersion, getGoVersion,
      getNodeVersion, getJavaVersion, getRubyVersion, getRustVersion, getPHPVersion,
      List.mem_cons, List.not_mem_nil, or_false] at hmem
    rcases ht with rfl | rfl | rfl | rfl | rfl | rfl | rfl <;>
      rcases hmem with rfl | rfl | rfl | rfl | rfl | rfl | rfl <;>
      simp_all [runCommand]

/-- Witness for C3: with every probe failing, the PHP probe yields the
empty version and no entry of the (then empty) list is named PHP. -/
theorem C3_failed_probe_excluded_witness :
    runCommand (fun _ _ => none) "php" ["--version"] = "" ∧
    (∀ l ∈ GetProgrammingLanguages (fun _ _ => none), l.Name ≠ "PHP") :=
  ⟨C3_failed_probe_excluded.1 (fun _ _ => none) "php" ["--version"] rfl,
   C3_failed_probe_excluded.2 (fun _ _ => none)
     ⟨"PHP", "🐘", "php", ["--version"]⟩ (by decide) rfl⟩

/-- C4: for every combination of probe results the detected list keeps
exactly the entries with non-empty version — every kept entry is
non-empty, the names appear as a subsequence of the fixed configured
order, and every tool whose probe produced a non-empty version is
present with that version. -/
theorem C4_nonempty_entries_in_order (exec : ExecCap) :
    (∀ l ∈ GetProgrammingLanguages exec, l.Version ≠ "") ∧
    List.Sublist ((GetProgrammingLanguages exec).map Language.Name)
      ["Python", "Go", "Node.js", "Java", "Ruby", "Rust", "PHP"] ∧
    (∀ t ∈ toolSpecs, runCommand exec t.command t.args ≠ "" →
      languageDetector t.name t.icon (runCommand exec t.command t.args)
        ∈ GetProgrammingLanguages exec) := by
  refine ⟨?_, ?_, ?_⟩
  · intro l hl
    exact (mem_GetProgrammingLanguages exec l hl).2
  · have hsub : List.Sublist (GetProgrammingLanguages exec) (languagesFull exec) :=
      List.filter_sublist _
    have hmap := hsub.map Language.Name
    have hfull : (languagesFull exec).map Language.Name
        = ["Python", "Go", "Node.js", "Java", "Ruby", "Rust", "PHP"] := rfl
    rwa [hfull] at hmap
  · intro t ht hne
    simp only [toolSpecs, List.mem_cons, List.not_mem_nil, or_false] at ht
    rcases ht with rfl | rfl | rfl | rfl | rfl | rfl | rfl <;>
      exact List.mem_filter.2
        ⟨by simp [languagesFull, getPythonVersion, getGoVersion, getNodeVersion,
            getJavaVersion, getRubyVersion, getRustVersion, getPHPVersion],
         by simpa [languageDetector] using hne⟩

/-- Witness for C4: a run where only the Go probe answers; its entry is
kept with the extracted version. -/
theorem C4_nonempty_entries_in_order_witness :
    languageDetector "Go" "🟢"
        (runCommand (fun c _ => if c = "go" then some "go 1.22.1" else none)
          "go" ["version"])
      ∈ GetProgrammingLanguages
          (fun c _ => if c = "go" then some "go 1.22.1" else none) :=
  (C4_nonempty_entries_in_order
      (fun c _ => if c = "go" then some "go 1.22.1" else none)).2.2
    ⟨"Go", "🟢", "go", ["version"]⟩ (by decide) (by decide)

/-- Two-decimal formatting of a value whose hundredfold is the nonnegative
integer `n`. -/
theorem fmtFloat2_eq_of_scaled (q : ℚ) (n : ℤ) (h : q * 100 = (n : ℚ)) (hn : 0 ≤ n) :
    fmtFloat2 q = centsRepr n.toNat := by
  unfold fmtFloat2
  rw [h, roundHalfEven_intCast]
  simp [not_lt.2 hn]

/-- C5: collection stores memory and disk totals divided by 2^30 and
uptime divided by 3600, exactly, with no rounding; the two-decimal
rendering used by the report maps 1073741824 bytes to "1.00 GB", 0 bytes
to "0.00 GB", 3600 seconds to "1.00 hours" and 5400 seconds to
"1.50 hours". -/
theorem C5_exact_conversions (env : HostEnv) (hd : HostInfoData) (cd : CPUInfoData)
    (cc : Nat) (memTotal diskTotal : Nat) (nd : NetIOData)
    (h1 : env.hostInfo = Except.ok hd) (h2 : env.cpuInfo = Except.ok cd)
    (h3 : env.cpuCounts = Except.ok cc) (h4 : env.memVirtualMemory = Except.ok memTotal)
    (h5 : env.diskUsage = Except.ok diskTotal) (h6 : env.netIOCounters = Except.ok nd) :
    (∃ info, collectSystemInfo env = Except.ok info ∧
      info.Memory = (memTotal : ℚ) / 2 ^ 30 ∧
      info.Disk = (diskTotal : ℚ) / 2 ^ 30 ∧
      info.Uptime = (hd.uptime : ℚ) / 3600) ∧
    formatUnitValue ((1073741824 : ℚ) / 2 ^ 30) "GB" = "1.00 GB" ∧
    formatUnitValue ((0 : ℚ) / 2 ^ 30) "GB" = "0.00 GB" ∧
    formatUnitValue ((3600 : ℚ) / 3600) "hours" = "1.00 hours" ∧
    formatUnitValue ((5400 : ℚ) / 3600) "hours" = "1.50 hours" := by
  obtain ⟨f1, f2, f3, f4, f5, f6⟩ := env
  simp only at h1 h2 h3 h4 h5 h6
  subst h1 h2 h3 h4 h5 h6
  refine ⟨⟨_, rfl, rfl, rfl, rfl⟩, ?_, ?_, ?_, ?_⟩
  · unfold formatUnitValue
    rw [fmtFloat2_eq_of_scaled _ 100 (by norm_num) (by norm_num)]
    decide
  · unfold formatUnitValue
    rw [fmtFloat2_eq_of_scaled _ 0 (by norm_num) (by norm_num)]
    decide
  · unfold formatUnitValue
    rw [fmtFloat2_eq_of_scaled _ 100 (by norm_num) (by norm_num)]
    decide
  · unfold formatUnitValue
    rw [fmtFloat2_eq_of_scaled _ 150 (by norm_num) (by norm_num)]
    decide

/-- Witness for C5 at a concrete successful run with one binary gigabyte
of memory and one hour of uptime. -/
theorem C5_exact_conversions_witness :
    (∃ info, collectSystemInfo
        { hostInfo := Except.ok ⟨"linux", "6.1", "6.1.0", "host", 3600⟩
          cpuInfo := Except.ok ⟨"cpu0"⟩
          cpuCounts := Except.ok 8
          memVirtualMemory := Except.ok 1073741824
          diskUsage := Except.ok 1073741824
          netIOCounters := Except.ok ⟨0, 0⟩ } = Except.ok info ∧
      info.Memory = ((1073741824 : ℕ) : ℚ) / 2 ^ 30 ∧
      info.Disk = ((1073741824 : ℕ) : ℚ) / 2 ^ 30 ∧
      info.Uptime = ((3600 : ℕ) : ℚ) / 3600) ∧
    formatUnitValue ((1073741824 : ℚ) / 2 ^ 30) "GB" = "1.00 GB" ∧
    formatUnitValue ((0 : ℚ) / 2 ^ 30) "GB" = "0.00 GB" ∧
    formatUnitValue ((3600 : ℚ) / 3600) "hours" = "1.00 hours" ∧
    formatUnitValue ((5400 : ℚ) / 3600) "hours" = "1.50 hours" :=
  C5_exact_conversions _ ⟨"linux", "6.1", "6.1.0", "host", 3600⟩ ⟨"cpu0"⟩ 8
    1073741824 1073741824 ⟨0, 0⟩ rfl rfl rfl rfl rfl rfl

/-- The java line scan falls through to its fallback when no line both
contains "version" and splits into two or more quote-separated parts. -/
theorem javaVersionScan_no_match (lines : List String) (fb : String)
    (h : ∀ line ∈ lines, goContains line "version" = true →
      ¬(goSplitChar line '\"').length > 1) :
    javaVersionScan lines fb = fb := by
  induction lines with
  | nil => rfl
  | cons l rest ih =>
    have hrest : ∀ line ∈ rest, goContains line "version" = true →
        ¬(goSplitChar line '\"').length > 1 :=
      fun line hl => h line (List.mem_cons_of_mem _ hl)
    by_cases hc : goContains l "version" = true
    · have hq := h l (List.mem_cons_self _ _) hc
      simp [javaVersionScan, hc, hq, ih hrest]
    · simp [javaVersionScan, hc, ih hrest]

/-- The java line scan returns the text between the first pair of quotes of
the first line that contains "version" and has such a pair. -/
theorem javaVersionScan_found (pre : List String) (line : String) (post : List String)
    (fb : String)
    (hpre : ∀ l ∈ pre, goContains l "version" = true →
      ¬(goSplitChar l '\"').length > 1)
    (hline : goContains line "version" = true)
    (hq : (goSplitChar line '\"').length > 1) :
    javaVersionScan (pre ++ line :: post) fb = (goSplitChar line '\"').getD 1 "" := by
  induction pre with
  | nil =>
    rw [List.nil_append]
    rw [List.getD_eq_getElem _ _ hq]
    simp [javaVersionScan, hline, hq]
  | cons p ps ih =>
    have hp := hpre p (List.mem_cons_self _ _)
    have hps : ∀ l ∈ ps, goContains l "version" = true →
        ¬(goSplitChar l '\"').length > 1 :=
      fun l hl => hpre l (List.mem_cons_of_mem _ hl)
    by_cases hc : goContains p "version" = true
    · simp [javaVersionScan, hc, hp hc, ih hps]
    · simp [javaVersionScan, hc, ih hps]

/-- C8: the java extraction rule scans the lines of the probe output for one
containing the word "version" and returns the substring between the first
pair of double quotes on that line (the first line containing "version"
that has such a pair). -/
theorem C8_java_quoted_version (out : String) (pre : List String) (line : String)
    (post : List String)
    (hsplit : goSplitChar out '\n' = pre ++ line :: post)
    (hpre : ∀ l ∈ pre, goContains l "version" = true →
      ¬(goSplitChar l '\"').length > 1)
    (hline : goContains line "version" = true)
    (hq : (goSplitChar line '\"').length > 1) :
    processVersionString "java" out = (goSplitChar line '\"').getD 1 "" := by
  have hjava : processVersionString "java" out
      = javaVersionScan (goSplitChar out '\n') out := by
    simp [processVersionString]
  rw [hjava, hsplit, javaVersionScan_found pre line post out hpre hline hq]

/-- Witness for C8 at the literal example output of the spec: the captured
output "openjdk version \"17.0.2\" 2022-01-18" yields version "17.0.2". -/
theorem C8_java_quoted_version_witness :
    processVersionString "java" "openjdk version \"17.0.2\" 2022-01-18" = "17.0.2" := by
  have h := C8_java_quoted_version "openjdk version \"17.0.2\" 2022-01-18" []
    "openjdk version \"17.0.2\" 2022-01-18" [] (by decide)
    (by intro l hl; exact absurd hl (List.not_mem_nil l)) (by decide) (by decide)
  rw [h]
  decide

/-- C10: whenever a per-tool rule does not match the shape of the trimmed
output (too few fields for python/ruby/go/rustc, no qualifying quoted line
for java, an all-whitespace output for php, or a command with no rule),
`processVersionString` returns the trimmed output unchanged, and a
non-empty unparseable output is kept as the version of the entry in
`GetProgrammingLanguages` rather than dropped. -/
theorem C10_no_rule_match_keeps_output :
    (∀ cmd v, (cmd = "python" ∨ cmd = "ruby" ∨ cmd = "go" ∨ cmd = "rustc") →
      (goFieldsS v).length < 2 → processVersionString cmd v = v) ∧
    (∀ v, (∀ line ∈ goSplitChar v '\n', goContains line "version" = true →
        ¬(goSplitChar line '\"').length > 1) →
      processVersionString "java" v = v) ∧
    (∀ v, goFieldsS v = [] → processVersionString "php" v = v) ∧
    (∀ cmd v,
      cmd ∉ (["python", "ruby", "go", "rustc", "node", "java", "php"] : List String) →
      processVersionString cmd v = v) ∧
    (∀ (exec : ExecCap) (out : String),
      exec "python" ["--version"] = some out →
      (goFieldsS (goTrimSpace out)).length < 2 → goTrimSpace out ≠ "" →
      languageDetector "Python" "🐍" (goTrimSpace out)
        ∈ GetProgrammingLanguages exec) := by
  have hfour : ∀ cmd v, (cmd = "python" ∨ cmd = "ruby" ∨ cmd = "go" ∨ cmd = "rustc") →
      (goFieldsS v).length < 2 → processVersionString cmd v = v := by
    intro cmd v hc hlen
    have hnot : ¬(goFieldsS v).length > 1 := by omega
    rcases hc with rfl | rfl | rfl | rfl <;> simp [processVersionString, hnot]
  refine ⟨hfour, ?_, ?_, ?_, ?_⟩
  · intro v h
    simp [processVersionString, javaVersionScan_no_match _ _ h]
  · intro v h
    simp [processVersionString, h]
  · intro cmd v h
    simp only [List.mem_cons, List.not_mem_nil, or_false, not_or] at h
    obtain ⟨n1, n2, n3, n4, n5, n6, n7⟩ := h
    simp [processVersionString, n1, n2, n3, n4, n5, n6, n7]
  · intro exec out hexec hlen hne
    refine List.mem_filter.2 ⟨?_, ?_⟩
    · have hver : getPythonVersion exec = goTrimSpace out := by
        unfold getPythonVersion runCommand
        rw [hexec]
        exact hfour "python" (goTrimSpace out) (Or.inl rfl) hlen
      simp [languagesFull, hver, languageDetector]
    · simpa [languageDetector] using hne

/-- Witness for C10 at four concrete unparseable outputs (single-field
python output, quote-free java output, empty php output, unknown tool). -/
theorem C10_no_rule_match_keeps_output_witness :
    processVersionString "python" "Python3" = "Python3" ∧
    processVersionString "java" "no quotes on the version line" =
      "no quotes on the version line" ∧
    processVersionString "php" "" = "" ∧
    processVersionString "clang" "clang 17.0.1" = "clang 17.0.1" ∧
    languageDetector "Python" "🐍" "Python3"
      ∈ GetProgrammingLanguages
          (fun c _ => if c = "python" then some "Python3\n" else none) := by
  refine ⟨C10_no_rule_match_keeps_output.1 "python" "Python3" (Or.inl rfl) (by decide),
    C10_no_rule_match_keeps_output.2.1 "no quotes on the version line" (by decide),
    C10_no_rule_match_keeps_output.2.2.1 "" (by decide),
    C10_no_rule_match_keeps_output.2.2.2.1 "clang" "clang 17.0.1" (by decide), ?_⟩
  have h := C10_no_rule_match_keeps_output.2.2.2.2
    (fun c _ => if c = "python" then some "Python3\n" else none) "Python3\n"
    rfl (by decide) (by decide)
  simpa using h

/-! ## ANSI stripping machinery for the style-switch claim -/

/-- Character lists free of the ANSI escape character. -/
def noEscL (l : List Char) : Prop := ∀ c ∈ l, c ≠ escChar

/-- Strings free of the ANSI escape character. -/
def noEscStr (s : String) : Prop := noEscL s.data

/-- State machine removing ANSI sequences: in skip state (`true`) drop
characters up to the terminating `m`; otherwise keep characters and enter
skip state at each escape character. -/
def stripAnsiAux : Bool → List Char → List Char
  | _, [] => []
  | true, c :: rest => if c = 'm' then stripAnsiAux false rest else stripAnsiAux true rest
  | false, c :: rest =>
    if c = escChar then stripAnsiAux true rest else c :: stripAnsiAux false rest

/-- Removes every ANSI escape sequence (ESC through the terminating `m`). -/
def stripAnsi (s : String) : String := String.mk (stripAnsiAux false s.data)

/-- Removes trailing spaces (used to compare rendered lines up to the
width padding). -/
def rstripSpaces (s : String) : String :=
  String.mk ((s.data.reverse.dropWhile (fun c => c == ' ')).reverse)

/-- String concatenation concatenates the underlying character lists. -/
theorem string_data_append (s t : String) : (s ++ t).data = s.data ++ t.data := rfl

/-- Escape-freedom splits over concatenation. -/
theorem noEscL_append {a b : List Char} : noEscL (a ++ b) ↔ noEscL a ∧ noEscL b := by
  simp [noEscL, List.mem_append, or_imp, forall_and]

/-- Escape-freedom of a string concatenation splits. -/
theorem noEscStr_append {s t : String} : noEscStr (s ++ t) ↔ noEscStr s ∧ noEscStr t := by
  simp [noEscStr, string_data_append, noEscL_append]

/-- The stripper copies an escape-free block verbatim. -/
theorem stripAnsiAux_false_noEsc (a b : List Char) (ha : noEscL a) :
    stripAnsiAux false (a ++ b) = a ++ stripAnsiAux false b := by
  induction a with
  | nil => rfl
  | cons c cs ih =>
    have hc : c ≠ escChar := ha c (List.mem_cons_self _ _)
    have hcs : noEscL cs := fun x hx => ha x (List.mem_cons_of_mem _ hx)
    simp [stripAnsiAux, hc, ih hcs]

/-- The stripper is the identity on escape-free input. -/
theorem stripAnsiAux_false_id (a : List Char) (ha : noEscL a) :
    stripAnsiAux false a = a := by
  simpa [stripAnsiAux] using stripAnsiAux_false_noEsc a [] ha

/-- In skip state the stripper drops everything up to the first `m`. -/
theorem stripAnsiAux_true_skip (a b : List Char) (ha : ∀ c ∈ a, c ≠ 'm') :
    stripAnsiAux true (a ++ 'm' :: b) = stripAnsiAux false b := by
  induction a with
  | nil => simp [stripAnsiAux]
  | cons c cs ih =>
    have hc : c ≠ 'm' := ha c (List.mem_cons_self _ _)
    have hcs : ∀ x ∈ cs, x ≠ 'm' := fun x hx => ha x (List.mem_cons_of_mem _ hx)
    simp [stripAnsiAux, hc, ih hcs]

/-- The underlying characters of the two-character escape opener. -/
theorem escOpen_data : ("\x1b[" : String).data = escChar :: '[' :: [] := rfl

/-- The underlying character of the sequence terminator. -/
theorem mChar_data : ("m" : String).data = 'm' :: [] := rfl

/-- Stripping consumes a reset sequence entirely. -/
theorem stripAnsiAux_reset (rest : List Char) :
    stripAnsiAux false (ansiReset.data ++ rest) = stripAnsiAux false rest := by
  show stripAnsiAux false (escChar :: '[' :: '0' :: 'm' :: rest) = stripAnsiAux false rest
  simp [stripAnsiAux, escChar]

/-- Stripping a styled segment recovers the unstyled text, provided the
attribute codes contain no `m` and the text no escape character. -/
theorem stripAnsiAux_colorSprint (attrs : List Nat) (s : String) (rest : List Char)
    (hs : noEscStr s)
    (hcode : ∀ c ∈ (joinSemis (attrs.map natRepr)).data, c ≠ 'm') :
    stripAnsiAux false ((colorSprint attrs false s).data ++ rest)
      = s.data ++ stripAnsiAux false rest := by
  have h1 : (colorSprint attrs false s).data ++ rest
      = escChar :: '[' :: ((joinSemis (attrs.map natRepr)).data
          ++ 'm' :: (s.data ++ (ansiReset.data ++ rest))) := by
    simp [colorSprint, ansiSeq, string_data_append, escOpen_data, mChar_data, escChar]
  rw [h1]
  have h2 : stripAnsiAux false
        (escChar :: '[' :: ((joinSemis (attrs.map natRepr)).data
          ++ 'm' :: (s.data ++ (ansiReset.data ++ rest))))
      = stripAnsiAux true ('[' :: ((joinSemis (attrs.map natRepr)).data
          ++ 'm' :: (s.data ++ (ansiReset.data ++ rest)))) := by
    simp [stripAnsiAux]
  rw [h2]
  have h3 := stripAnsiAux_true_skip ('[' :: (joinSemis (attrs.map natRepr)).data)
    (s.data ++ (ansiReset.data ++ rest))
    (by
      intro c hc
      rcases List.mem_cons.1 hc with rfl | hmem
      · decide
      · exact hcode c hmem)
  rw [List.cons_append] at h3
  rw [h3, stripAnsiAux_false_noEsc _ _ hs, stripAnsiAux_reset]

/-- Escape-freedom of a character list is decidable. -/
instance decNoEscL (l : List Char) : Decidable (noEscL l) :=
  List.decidableBAll (fun c => c ≠ escChar) l

/-- Escape-freedom of a string is decidable. -/
instance decNoEscStr (s : String) : Decidable (noEscStr s) :=
  List.decidableBAll (fun c => c ≠ escChar) s.data

/-- Decimal digits are not the escape character. -/
theorem digitChar_ne_esc (d : Nat) (h : d < 10) : digitChar d ≠ escChar := by
  interval_cases d <;> decide

/-- Rendered naturals contain no escape character. -/
theorem noEscL_natReprAux (fuel n : Nat) : noEscL (natReprAux fuel n) := by
  induction fuel generalizing n with
  | zero => intro c hc; simp [natReprAux] at hc
  | succ fuel ih =>
    intro c hc
    by_cases h : n < 10
    · simp only [natReprAux, if_pos h, List.mem_singleton] at hc
      subst hc
      exact digitChar_ne_esc n h
    · simp only [natReprAux, if_neg h, List.mem_append, List.mem_singleton] at hc
      rcases hc with hc | hc
      · exact ih (n / 10) c hc
      · subst hc
        exact digitChar_ne_esc _ (Nat.mod_lt _ (by norm_num))

/-- Rendered naturals contain no escape character. -/
theorem noEscStr_natRepr (n : Nat) : noEscStr (natRepr n) := noEscL_natReprAux _ _

/-- Two-decimal cent strings contain no escape character. -/
theorem noEscStr_centsRepr (m : Nat) : noEscStr (centsRepr m) := by
  unfold centsRepr
  refine noEscStr_append.2 ⟨noEscStr_append.2 ⟨noEscStr_append.2
    ⟨noEscStr_natRepr _, by decide⟩, ?_⟩, noEscStr_natRepr _⟩
  split
  · decide
  · decide

/-- Formatted floats contain no escape character. -/
theorem noEscStr_fmtFloat2 (q : ℚ) : noEscStr (fmtFloat2 q) := by
  simp only [fmtFloat2]
  split
  · exact noEscStr_append.2 ⟨by decide, noEscStr_centsRepr _⟩
  · exact noEscStr_centsRepr _

/-- Width padding consists of spaces only. -/
theorem getPadding_all_spaces (content : String) (w : Int) :
    ∀ c ∈ (getPadding content w).data, c = ' ' := by
  intro c hc
  unfold getPadding goRepeatSpace at hc
  exact List.eq_of_mem_replicate hc

/-- Width padding contains no escape character. -/
theorem noEscStr_getPadding (content : String) (w : Int) :
    noEscStr (getPadding content w) := by
  intro c hc
  rw [getPadding_all_spaces content w c hc]
  decide

/-- Dropping leading spaces ignores an all-space prefix. -/
theorem dropWhile_spaces_append (sp t : List Char) (hsp : ∀ c ∈ sp, c = ' ') :
    List.dropWhile (fun c => c == ' ') (sp ++ t)
      = List.dropWhile (fun c => c == ' ') t := by
  induction sp with
  | nil => rfl
  | cons c cs ih =>
    have hc := hsp c (List.mem_cons_self _ _)
    subst hc
    simpa using ih (fun x hx => hsp x (List.mem_cons_of_mem _ hx))

/-- Right-stripping ignores an all-space suffix. -/
theorem rstrip_mk_append_spaces (core sp : List Char) (hsp : ∀ c ∈ sp, c = ' ') :
    rstripSpaces (String.mk (core ++ sp)) = rstripSpaces (String.mk core) := by
  show String.mk (((core ++ sp).reverse.dropWhile (fun c => c == ' ')).reverse)
      = String.mk ((core.reverse.dropWhile (fun c => c == ' ')).reverse)
  rw [List.reverse_append,
    dropWhile_spaces_append _ _ (fun c hc => hsp c (List.mem_reverse.1 hc))]

/-- Right-stripping a line removes its padding and trailing space. -/
theorem rstrip_append_pad (x pads : String) (hp : ∀ c ∈ pads.data, c = ' ') :
    rstripSpaces (x ++ pads ++ " ") = rstripSpaces x := by
  have h1 : x ++ pads ++ " " = String.mk (x.data ++ (pads.data ++ (" " : String).data)) := by
    apply String.ext
    simp [string_data_append]
  have hsp : ∀ c ∈ pads.data ++ (" " : String).data, c = ' ' := by
    intro c hc
    rcases List.mem_append.1 hc with hc | hc
    · exact hp c hc
    · simpa using hc
  have h2 := rstrip_mk_append_spaces x.data (pads.data ++ (" " : String).data) hsp
  have h3 : String.mk x.data = x := rfl
  rw [h1, h2, h3]

/-- Stripping a styled metric line recovers the plain text of its icon,
label and value, keeping the (escape-free) tail. -/
theorem strip_styled_line (icon name valueStr pads : String)
    (hi : noEscStr icon) (hn : noEscStr name) (hv : noEscStr valueStr)
    (hpads : noEscStr pads) :
    stripAnsi (" " ++ (icon ++ " " ++ colorSprint [92, 1] false name ++ ": "
        ++ colorSprint [37] false valueStr) ++ pads ++ " ")
      = " " ++ (icon ++ " " ++ name ++ ": " ++ valueStr) ++ pads ++ " " := by
  have hsp : noEscL ((" " : String).data) := by decide
  have hcol : noEscL ((": " : String).data) := by decide
  have hhdr : ∀ c ∈ (joinSemis (([92, 1] : List Nat).map natRepr)).data, c ≠ 'm' := by decide
  have hval : ∀ c ∈ (joinSemis (([37] : List Nat).map natRepr)).data, c ≠ 'm' := by decide
  apply String.ext
  show stripAnsiAux false ((" " ++ (icon ++ " " ++ colorSprint [92, 1] false name ++ ": "
      ++ colorSprint [37] false valueStr) ++ pads ++ " ").data) = _
  simp only [string_data_append, List.append_assoc]
  rw [stripAnsiAux_false_noEsc _ _ hsp, stripAnsiAux_false_noEsc _ _ hi,
    stripAnsiAux_false_noEsc _ _ hsp, stripAnsiAux_colorSprint _ _ _ hn hhdr,
    stripAnsiAux_false_noEsc _ _ hcol, stripAnsiAux_colorSprint _ _ _ hv hval,
    stripAnsiAux_false_noEsc _ _ hpads, stripAnsiAux_false_id _ hsp]

/-- With styling off a rendered metric line is escape-free, and the styled
variant of the same line strips back to it up to the width padding. -/
theorem renderMetricLine_plain_eq_strip (m : Metric)
    (hi : noEscStr m.icon) (hn : noEscStr m.name) (hv : noEscStr (metricValueStr m)) :
    noEscStr (renderMetricLine createColorSchemes true m) ∧
    rstripSpaces (stripAnsi (renderMetricLine createColorSchemes false m))
      = rstripSpaces (renderMetricLine createColorSchemes true m) := by
  have hsp : noEscStr (" " : String) := by decide
  have hcol : noEscStr (": " : String) := by decide
  constructor
  · have hplain : renderMetricLine createColorSchemes true m
        = " " ++ (m.icon ++ " " ++ m.name ++ ": " ++ metricValueStr m)
          ++ getPadding (m.icon ++ " " ++ m.name ++ ": " ++ metricValueStr m) 58
          ++ " " := rfl
    rw [hplain]
    simp only [noEscStr_append]
    exact ⟨⟨⟨hsp, ⟨⟨⟨⟨hi, hsp⟩, hn⟩, hcol⟩, hv⟩⟩, noEscStr_getPadding _ _⟩, hsp⟩
  · have hstyled : renderMetricLine createColorSchemes false m
        = " " ++ (m.icon ++ " " ++ colorSprint [92, 1] false m.name ++ ": "
            ++ colorSprint [37] false (metricValueStr m))
          ++ getPadding (m.icon ++ " " ++ colorSprint [92, 1] false m.name ++ ": "
            ++ colorSprint [37] false (metricValueStr m)) 58
          ++ " " := rfl
    have hplain : renderMetricLine createColorSchemes true m
        = " " ++ (m.icon ++ " " ++ m.name ++ ": " ++ metricValueStr m)
          ++ getPadding (m.icon ++ " " ++ m.name ++ ": " ++ metricValueStr m) 58
          ++ " " := rfl
    rw [hstyled, hplain,
      strip_styled_line m.icon m.name (metricValueStr m) _ hi hn hv
        (noEscStr_getPadding _ _),
      rstrip_append_pad _ _ (getPadding_all_spaces _ _),
      rstrip_append_pad _ _ (getPadding_all_spaces _ _)]

/-- C7: rendering with the style switch disabled produces lines free of
ANSI style markers, carrying the same textual content (icon, label, value)
as the styled rendering of the same snapshot: each styled line equals its
plain counterpart after stripping escape sequences and trailing padding. -/
theorem C7_no_style_same_content (info : SystemInfo)
    (hp : noEscStr info.Platform) (hk : noEscStr info.Kernel)
    (hh : noEscStr info.Hostname) (hc : noEscStr info.CPU) :
    (∀ l ∈ printSystemDetails info createColorSchemes true, noEscStr l) ∧
    (printSystemDetails info createColorSchemes false).map
        (fun l => rstripSpaces (stripAnsi l))
      = (printSystemDetails info createColorSchemes true).map rstripSpaces := by
  have hmetrics : ∀ m ∈ metricsOf info,
      noEscStr m.icon ∧ noEscStr m.name ∧ noEscStr (metricValueStr m) := by
    intro m hm
    simp only [metricsOf, List.mem_cons, List.not_mem_nil, or_false] at hm
    rcases hm with rfl | rfl | rfl | rfl | rfl | rfl | rfl | rfl
    · exact ⟨(by decide : noEscStr ""), (by decide : noEscStr "Platform"), hp⟩
    · exact ⟨(by decide : noEscStr ""), (by decide : noEscStr "Kernel"), hk⟩
    · exact ⟨(by decide : noEscStr ""), (by decide : noEscStr "Hostname"), hh⟩
    · exact ⟨(by decide : noEscStr ""), (by decide : noEscStr "CPU"), hc⟩
    · refine ⟨(by decide : noEscStr ""), (by decide : noEscStr "Memory"), ?_⟩
      show noEscStr (fmtFloat2 info.Memory ++ " " ++ "GB")
      exact noEscStr_append.2 ⟨noEscStr_append.2 ⟨noEscStr_fmtFloat2 _, by decide⟩, by decide⟩
    · refine ⟨(by decide : noEscStr ""), (by decide : noEscStr "Disk"), ?_⟩
      show noEscStr (fmtFloat2 info.Disk ++ " " ++ "GB")
      exact noEscStr_append.2 ⟨noEscStr_append.2 ⟨noEscStr_fmtFloat2 _, by decide⟩, by decide⟩
    · refine ⟨(by decide : noEscStr ""), (by decide : noEscStr "Uptime"), ?_⟩
      show noEscStr (fmtFloat2 info.Uptime ++ " " ++ "hours")
      exact noEscStr_append.2 ⟨noEscStr_append.2 ⟨noEscStr_fmtFloat2 _, by decide⟩, by decide⟩
    · refine ⟨(by decide : noEscStr ""), (by decide : noEscStr "Network"), ?_⟩
      show noEscStr ("↑" ++ fmtFloat2 info.NetworkSent ++ " MB | ↓"
        ++ fmtFloat2 info.NetworkRecv ++ " MB")
      exact noEscStr_append.2 ⟨noEscStr_append.2 ⟨noEscStr_append.2
        ⟨noEscStr_append.2 ⟨by decide, noEscStr_fmtFloat2 _⟩, by decide⟩,
        noEscStr_fmtFloat2 _⟩, by decide⟩
  constructor
  · intro l hl
    simp only [printSystemDetails, List.mem_map] at hl
    obtain ⟨m, hm, rfl⟩ := hl
    obtain ⟨h1, h2, h3⟩ := hmetrics m hm
    exact (renderMetricLine_plain_eq_strip m h1 h2 h3).1
  · simp only [printSystemDetails, List.map_map]
    apply List.map_congr_left
    intro m hm
    obtain ⟨h1, h2, h3⟩ := hmetrics m hm
    exact (renderMetricLine_plain_eq_strip m h1 h2 h3).2

/-- Witness for C7 at a concrete snapshot. -/
theorem C7_no_style_same_content_witness :
    (∀ l ∈ printSystemDetails
        ⟨"linux 6.1", "6.1.0", "host", "cpu0 (8 cores)", 1, 1, 1, 0, 0⟩
        createColorSchemes true, noEscStr l) ∧
    (printSystemDetails ⟨"linux 6.1", "6.1.0", "host", "cpu0 (8 cores)", 1, 1, 1, 0, 0⟩
        createColorSchemes false).map (fun l => rstripSpaces (stripAnsi l))
      = (printSystemDetails ⟨"linux 6.1", "6.1.0", "host", "cpu0 (8 cores)", 1, 1, 1, 0, 0⟩
          createColorSchemes true).map rstripSpaces :=
  C7_no_style_same_content ⟨"linux 6.1", "6.1.0", "host", "cpu0 (8 cores)", 1, 1, 1, 0, 0⟩
    (by decide) (by decide) (by decide) (by decide)

end NgFetch
